import Mathlib

/-!
# OMAP3 MUSB (USB OTG) board glue: reset sequence, idle toggle, clock gate

A shallow embedding of `arch/arm/mach-omap2/usb-musb.c`.

The C functions `usb_musb_pm_init`, `usb_musb_disable_autoidle`,
`musb_disable_idle` and `musb_set_clock` are translated statement by
statement.  Everything they call that lives outside the file (the clock
framework, `ioremap`, the MMIO accessors, `printk`, ...) is a recording
double: each call appends one `Event` to `State.trace`, and what the call
returns is supplied by a `Platform`.

Registers.  There is one register store, `State.regs`, indexed by physical
address.  `omap_readl` / `omap_writel` take a physical address and act on it
directly: SYSCONFIG is a plain read/write register, so a read returns what was
last written.  `__raw_writel` and `__raw_readl` take an ioremapped address,
which is translated through the windows that `ioremap` has set up
(`State.maps`); a store through a window lands in `State.regs` at the
physical address behind it.  An access that lies in no window (for instance
through an `otg_base` that is still `NULL`) reaches no register and sets
`State.oops`.  `__raw_readl` is only used to poll SYSSTATUS, which the
hardware drives: the value of each read is supplied by `Platform.readl`,
indexed by how many reads have been made.

Machine integers: `u32` values are `Nat` reduced `% 2 ^ 32`; `int` values
are `Int` (the only `int`s here are compared with zero and assigned 0 / 1).
Pointers are `Nat`, with `0` for `NULL`.
-/

namespace UsbMusb

/-! ## Constants and macros -/

/-- Modelled from the spec: the macro `BIT` of `linux/bitops.h`, which is not
part of the translated file.  It is `(1UL << nr)`; `unsigned long` is 32 bits
wide on this ARM target. -/
def BIT (nr : Nat) : Nat := (1 <<< nr) % 2 ^ 32

/-- Modelled from the spec: `SZ_4K` of `asm/sizes.h`, which is not part of the
translated file ("a fixed 4 KiB span"). -/
def SZ_4K : Nat := 0x1000

def OTG_SYSCONFIG : Nat := 0x404
def OTG_SYSC_SOFTRESET : Nat := BIT 1
def OTG_SYSSTATUS : Nat := 0x408
def OTG_SYSS_RESETDONE : Nat := BIT 0

/-- Bit position of the standby field. -/
def MIDLEMODE : Nat := 12
def FORCESTDBY : Nat := 0 <<< MIDLEMODE
def NOSTDBY : Nat := 1 <<< MIDLEMODE
def SMARTSTDBY : Nat := 2 <<< MIDLEMODE
/-- Bit position of the idle field. -/
def SIDLEMODE : Nat := 3
def FORCEIDLE : Nat := 0 <<< SIDLEMODE
def NOIDLE : Nat := 1 <<< SIDLEMODE
def SMARTIDLE : Nat := 2 <<< SIDLEMODE

/-- The C operator `~` on a value that is then used as a `u32` mask. -/
def not32 (x : Nat) : Nat := (2 ^ 32 - 1) ^^^ (x % 2 ^ 32)

/-! ## The recording double -/

/-- One call that leaves the translated file. -/
inductive Event where
  | ioremap (pa size ret : Nat)
  | WARN_ON
  | dev_set_name
  | clk_get (ret : Nat)
  | clk_enable (clk : Nat) (ret : Int)
  | clk_disable (clk : Nat)
  | printk
  | raw_writel (val addr : Nat)
  | raw_readl (addr val : Nat)
  | cpu_relax
  | omap_readl (pa val : Nat)
  | omap_writel (val pa : Nat)
  deriving DecidableEq

/-- What the board and the kernel services answer.  Pointers are `Nat`s and
`0` is `NULL`.  `OMAP34XX_HSUSB_OTG_BASE` (from `plat/omap34xx.h`) is not
defined in the translated file and is taken as a parameter. -/
structure Platform where
  /-- Result of `cpu_is_omap34xx()`. -/
  cpu_is_omap34xx : Bool
  /-- Physical base address of the OTG register block. -/
  OMAP34XX_HSUSB_OTG_BASE : Nat
  /-- Result of `ioremap(pa, size)`. -/
  ioremap : Nat → Nat → Nat
  /-- Result of `clk_get(dev, "ick")`. -/
  clk_get : Nat
  /-- Result of `clk_enable(clk)`. -/
  clk_enable : Nat → Int
  /-- Value the hardware returns to the `k`-th `__raw_readl`, at an address. -/
  readl : Nat → Nat → Nat

/-- One `ioremap` window: `size` bytes at virtual address `va` stand for the
physical addresses from `pa` on. -/
structure Window where
  va : Nat
  pa : Nat
  size : Nat

/-- Physical address behind an ioremapped address, if some window covers it
(the most recent window first).  Physical addresses are 32 bits wide. -/
def translate : List Window → Nat → Option Nat
  | [], _ => none
  | w :: ws, addr =>
    if w.va ≤ addr ∧ addr < w.va + w.size then
      some ((w.pa + (addr - w.va)) % 2 ^ 32)
    else
      translate ws addr

/-- The file's static variables, the register contents, and the record of
calls made so far. -/
structure State where
  /-- The global `static void __iomem *otg_base`. -/
  otg_base : Nat
  /-- The global `static struct clk *otg_clk`. -/
  otg_clk : Nat
  /-- The global `static int clk_on`. -/
  clk_on : Int
  /-- Register contents, by physical address. -/
  regs : Nat → Nat
  /-- The windows set up by `ioremap`, most recent first. -/
  maps : List Window
  /-- Set once an MMIO access has missed every window. -/
  oops : Bool
  /-- Number of `__raw_readl` calls made so far. -/
  nread : Nat
  /-- Every outside call made so far, oldest first. -/
  trace : List Event

/-- State at boot: zeroed statics, nothing recorded yet. -/
def State.boot (regs : Nat → Nat) : State :=
  { otg_base := 0, otg_clk := 0, clk_on := 0, regs := regs, maps := [], oops := false,
    nread := 0, trace := [] }

def State.log (s : State) (e : Event) : State :=
  { s with trace := s.trace ++ [e] }

/-- A successful `ioremap` (non-`NULL` result) adds a window; a failed one adds none. -/
def ioremap (p : Platform) (s : State) (pa size : Nat) : Nat × State :=
  let r := p.ioremap pa size
  (r, { s with maps := if r = 0 then s.maps else { va := r, pa := pa, size := size } :: s.maps,
               trace := s.trace ++ [Event.ioremap pa size r] })

/-- The macro `WARN_ON(c)`: yields `c`, and warns when `c` holds. -/
def WARN_ON (s : State) (c : Bool) : Bool × State :=
  (c, if c then s.log Event.WARN_ON else s)

def dev_set_name (s : State) : State := s.log Event.dev_set_name

def clk_get (p : Platform) (s : State) : Nat × State :=
  (p.clk_get, s.log (Event.clk_get p.clk_get))

def clk_enable (p : Platform) (s : State) (clk : Nat) : Int × State :=
  (p.clk_enable clk, s.log (Event.clk_enable clk (p.clk_enable clk)))

def clk_disable (s : State) (clk : Nat) : State := s.log (Event.clk_disable clk)

def printk (s : State) : State := s.log Event.printk

def cpu_relax (s : State) : State := s.log Event.cpu_relax

def __raw_writel (s : State) (val addr : Nat) : State :=
  match translate s.maps addr with
  | some pa =>
    { s with regs := fun a => if a = pa then val % 2 ^ 32 else s.regs a,
             trace := s.trace ++ [Event.raw_writel (val % 2 ^ 32) addr] }
  | none =>
    { s with oops := true,
             trace := s.trace ++ [Event.raw_writel (val % 2 ^ 32) addr] }

def __raw_readl (p : Platform) (s : State) (addr : Nat) : Nat × State :=
  let v := p.readl s.nread addr % 2 ^ 32
  (v, { s with oops := s.oops || (translate s.maps addr).isNone,
               nread := s.nread + 1,
               trace := s.trace ++ [Event.raw_readl addr v] })

def omap_readl (s : State) (pa : Nat) : Nat × State :=
  let v := s.regs (pa % 2 ^ 32) % 2 ^ 32
  (v, s.log (Event.omap_readl (pa % 2 ^ 32) v))

def omap_writel (s : State) (val pa : Nat) : State :=
  { s with regs := fun a => if a = pa % 2 ^ 32 then val % 2 ^ 32 else s.regs a,
           trace := s.trace ++ [Event.omap_writel (val % 2 ^ 32) (pa % 2 ^ 32)] }

/-! ## The translated functions -/

/-- The loop `while (!(OTG_SYSS_RESETDONE & __raw_readl(otg_base + OTG_SYSSTATUS))) cpu_relax();`.
The C loop has no bound; `fuel` is the number of reads the model may make,
and `none` means the fuel ran out before the hardware reported reset-done. -/
def poll_resetdone (p : Platform) : Nat → State → Option State
  | 0, _ => none
  | fuel + 1, s =>
    let (v, s1) := __raw_readl p s (s.otg_base + OTG_SYSSTATUS)
    if OTG_SYSS_RESETDONE &&& v = 0 then
      poll_resetdone p fuel (cpu_relax s1)
    else
      some s1

/-- `static void __init usb_musb_pm_init(void)`. -/
def usb_musb_pm_init (p : Platform) (fuel : Nat) (s : State) : Option State :=
  if !p.cpu_is_omap34xx then
    some s
  else
    let (base, s) := ioremap p s p.OMAP34XX_HSUSB_OTG_BASE SZ_4K
    let s := { s with otg_base := base }
    let (w, s) := WARN_ON s (s.otg_base = 0)
    if w then
      some s
    else
      let s := dev_set_name s
      let (clk, s) := clk_get p s
      let s := { s with otg_clk := clk }
      -- `otg_clk && clk_enable(otg_clk)`: the call is made only for a non-NULL handle
      let (failed, s) :=
        if s.otg_clk ≠ 0 then
          let (r, s) := clk_enable p s s.otg_clk
          (decide (r ≠ 0), s)
        else
          (false, s)
      let after : Option State :=
        if failed then
          some (printk s)
        else
          poll_resetdone p fuel (__raw_writel s OTG_SYSC_SOFTRESET (s.otg_base + OTG_SYSCONFIG))
      match after with
      | none => none
      | some s => if s.otg_clk ≠ 0 then some (clk_disable s s.otg_clk) else some s

/-- `void usb_musb_disable_autoidle(void)`. -/
def usb_musb_disable_autoidle (s : State) : State :=
  __raw_writel s 0 (s.otg_base + OTG_SYSCONFIG)

/-- The register arithmetic of `musb_disable_idle` between its read and its write. -/
def idle_update (on_ : Int) (reg : Nat) : Nat :=
  if on_ ≠ 0 then
    let reg := reg &&& not32 SMARTSTDBY
    let reg := reg ||| NOSTDBY
    let reg := reg ||| NOIDLE
    reg
  else
    let reg := reg &&& not32 NOSTDBY
    let reg := reg &&& not32 NOIDLE
    let reg := reg ||| SMARTSTDBY
    reg

/-- `void musb_disable_idle(int on)`; the argument is spelt `on_` because `on` is reserved. -/
def musb_disable_idle (p : Platform) (on_ : Int) (s : State) : State :=
  if !p.cpu_is_omap34xx then
    s
  else
    let (reg, s) := omap_readl s (p.OMAP34XX_HSUSB_OTG_BASE + OTG_SYSCONFIG)
    omap_writel s (idle_update on_ reg) (p.OMAP34XX_HSUSB_OTG_BASE + OTG_SYSCONFIG)

/-- `static int musb_set_clock(struct clk *clk, int state)`.  `ENODEV` comes
from `linux/errno.h` and is taken as a parameter. -/
def musb_set_clock (p : Platform) (ENODEV : Int) (s : State) (clk : Nat) (state : Int) :
    Int × State :=
  if state ≠ 0 then
    if s.clk_on > 0 then
      (-ENODEV, s)
    else
      let (_, s) := clk_enable p s clk
      (0, { s with clk_on := 1 })
  else
    if s.clk_on = 0 then
      (-ENODEV, s)
    else
      let s := clk_disable s clk
      (0, { s with clk_on := 0 })

/-! ## Vocabulary of the properties -/

/-- Standby field (MIDLEMODE, bits 13:12) of a SYSCONFIG value. -/
def standby_field (reg : Nat) : Nat := (reg >>> MIDLEMODE) &&& 3

/-- Idle field (SIDLEMODE, bits 4:3) of a SYSCONFIG value. -/
def idle_field (reg : Nat) : Nat := (reg >>> SIDLEMODE) &&& 3

/-- Content of SYSCONFIG as `musb_disable_idle` addresses it. -/
def sysconfig (p : Platform) (s : State) : Nat :=
  s.regs ((p.OMAP34XX_HSUSB_OTG_BASE + OTG_SYSCONFIG) % 2 ^ 32)

/-- The address `ioremap` hands back for the OTG register block. -/
def Platform.otg_va (p : Platform) : Nat := p.ioremap p.OMAP34XX_HSUSB_OTG_BASE SZ_4K

/-- The calls recorded between state `s` and a later state `s1`. -/
def events_since (s s1 : State) : List Event := s1.trace.drop s.trace.length

/-- Clock-gate calls and register accesses, as opposed to set-up calls
(`ioremap`, `dev_set_name`, `clk_get`), diagnostics and `cpu_relax`. -/
def Event.is_hw : Event → Bool
  | Event.clk_enable _ _ => true
  | Event.clk_disable _ => true
  | Event.raw_writel _ _ => true
  | Event.raw_readl _ _ => true
  | Event.omap_readl _ _ => true
  | Event.omap_writel _ _ => true
  | _ => false

/-- Diagnostics: the `printk` warning and the `WARN_ON` splat. -/
def Event.is_diag : Event → Bool
  | Event.printk => true
  | Event.WARN_ON => true
  | _ => false

/-- Register accesses of either family. -/
def Event.is_reg : Event → Bool
  | Event.raw_writel _ _ => true
  | Event.raw_readl _ _ => true
  | Event.omap_readl _ _ => true
  | Event.omap_writel _ _ => true
  | _ => false

/-- What a poll records that sees `n` reads without reset-done and then one
with it, when its first read is read number `k0`. -/
def poll_events (p : Platform) (addr k0 n : Nat) : List Event :=
  (List.range n).flatMap
      (fun k => [Event.raw_readl addr (p.readl (k0 + k) addr % 2 ^ 32), Event.cpu_relax])
    ++ [Event.raw_readl addr (p.readl (k0 + n) addr % 2 ^ 32)]

/-- A run of `musb_set_clock` calls, each given as `(clk, state)`; the return
values are dropped. -/
def set_clock_calls (p : Platform) (ENODEV : Int) : List (Nat × Int) → State → State
  | [], s => s
  | (clk, state) :: rest, s => set_clock_calls p ENODEV rest (musb_set_clock p ENODEV s clk state).2

/-! ## Concrete boards used at the examples -/

/-- An OMAP34xx board: mapping succeeds, the clock is found, `clk_enable`
answers `en`, and SYSSTATUS reports reset-done from read number `n` on. -/
def board34xx (clk : Nat) (en : Int) (n : Nat) : Platform :=
  { cpu_is_omap34xx := true
    OMAP34XX_HSUSB_OTG_BASE := 0x480AB000
    ioremap := fun _ _ => 0xFA0AB000
    clk_get := clk
    clk_enable := fun _ => en
    readl := fun k _ => if k < n then 0 else 1 }

/-- A board of another family. -/
def board24xx : Platform :=
  { board34xx 7 0 0 with cpu_is_omap34xx := false }

/-- Boot state with SYSCONFIG holding `R` and every other register zero. -/
def boot_with (R : Nat) : State :=
  State.boot (fun a => if a = 0x480AB404 then R else 0)

/-! ## Bit-level lemmas -/

theorem testBit_NOSTDBY (i : Nat) : NOSTDBY.testBit i = decide (12 = i) := by
  have h : NOSTDBY = 2 ^ 12 := by decide
  rw [h, Nat.testBit_two_pow]

theorem testBit_SMARTSTDBY (i : Nat) : SMARTSTDBY.testBit i = decide (13 = i) := by
  have h : SMARTSTDBY = 2 ^ 13 := by decide
  rw [h, Nat.testBit_two_pow]

theorem testBit_NOIDLE (i : Nat) : NOIDLE.testBit i = decide (3 = i) := by
  have h : NOIDLE = 2 ^ 3 := by decide
  rw [h, Nat.testBit_two_pow]

theorem testBit_high (R i : Nat) (hR : R < 2 ^ 32) (hi : ¬ i < 32) : R.testBit i = false :=
  Nat.testBit_lt_two_pow (lt_of_lt_of_le hR (Nat.pow_le_pow_right (by decide) (not_lt.mp hi)))

theorem testBit_not32 (x i : Nat) (hx : x < 2 ^ 32) :
    (not32 x).testBit i = (decide (i < 32) && !x.testBit i) := by
  unfold not32
  rw [Nat.mod_eq_of_lt hx, Nat.testBit_xor, Nat.testBit_two_pow_sub_one]
  by_cases h : i < 32
  · simp [h]
  · simp [h, testBit_high x i hx h]

/-- Bit by bit, the `on` branch sets bits 12 and 3, clears bit 13 and copies the rest. -/
theorem testBit_idle_update_on (on_ : Int) (h : on_ ≠ 0) (R i : Nat) (hR : R < 2 ^ 32) :
    (idle_update on_ R).testBit i =
      if i = 12 ∨ i = 3 then true else if i = 13 then false else R.testBit i := by
  simp only [idle_update, h, ne_eq, not_false_eq_true, if_true, Nat.testBit_or, Nat.testBit_and,
    testBit_NOSTDBY, testBit_NOIDLE, testBit_not32 SMARTSTDBY i (by decide), testBit_SMARTSTDBY]
  by_cases h12 : i = 12
  · simp [h12]
  by_cases h3 : i = 3
  · simp [h3]
  by_cases h13 : i = 13
  · simp [h13]
  by_cases h32 : i < 32
  · simp [h12, h3, h13, h32, Ne.symm h12, Ne.symm h3, Ne.symm h13]
  · simp [h12, h3, h13, h32, Ne.symm h12, Ne.symm h3, Ne.symm h13, testBit_high R i hR h32]

/-- Bit by bit, the `off` branch sets bit 13, clears bits 12 and 3 and copies the rest. -/
theorem testBit_idle_update_off (R i : Nat) (hR : R < 2 ^ 32) :
    (idle_update 0 R).testBit i =
      if i = 13 then true else if i = 12 ∨ i = 3 then false else R.testBit i := by
  simp only [idle_update, ne_eq, not_true_eq_false, if_false, Nat.testBit_or, Nat.testBit_and,
    testBit_NOSTDBY, testBit_NOIDLE, testBit_not32 NOSTDBY i (by decide),
    testBit_not32 NOIDLE i (by decide), testBit_SMARTSTDBY]
  by_cases h13 : i = 13
  · simp [h13]
  by_cases h12 : i = 12
  · simp [h12]
  by_cases h3 : i = 3
  · simp [h3]
  by_cases h32 : i < 32
  · simp [h12, h3, h13, h32, Ne.symm h12, Ne.symm h3, Ne.symm h13]
  · simp [h12, h3, h13, h32, Ne.symm h12, Ne.symm h3, Ne.symm h13, testBit_high R i hR h32]

theorem idle_update_lt (on_ : Int) (R : Nat) (hR : R < 2 ^ 32) : idle_update on_ R < 2 ^ 32 := by
  apply Nat.lt_pow_two_of_testBit
  intro i hi
  have hi' : ¬ i < 32 := not_lt.mpr hi
  have h12 : i ≠ 12 := by omega
  have h3 : i ≠ 3 := by omega
  have h13 : i ≠ 13 := by omega
  by_cases h : on_ = 0
  · subst h
    rw [testBit_idle_update_off R i hR]
    simp [h12, h3, h13, testBit_high R i hR hi']
  · rw [testBit_idle_update_on on_ h R i hR]
    simp [h12, h3, h13, testBit_high R i hR hi']

/-- A two-bit field is its low bit plus twice its high bit. -/
theorem field_eq (v pos : Nat) :
    (v >>> pos) &&& 3 = (v.testBit pos).toNat + 2 * (v.testBit (pos + 1)).toNat := by
  have h3 : (3 : Nat) = 2 ^ 2 - 1 := by decide
  have hd : v / 2 ^ (pos + 1) = v / 2 ^ pos / 2 := by
    rw [Nat.pow_succ, Nat.div_div_eq_div_mul]
  rw [h3, Nat.and_pow_two_sub_one_eq_mod, Nat.shiftRight_eq_div_pow,
    Nat.testBit_to_div_mod, Nat.testBit_to_div_mod, hd]
  generalize v / 2 ^ pos = q
  by_cases h0 : q % 2 = 1 <;> by_cases h1 : q / 2 % 2 = 1 <;> simp [h0, h1] <;> omega

theorem standby_field_eq (v : Nat) :
    standby_field v = (v.testBit 12).toNat + 2 * (v.testBit 13).toNat :=
  field_eq v 12

theorem idle_field_eq (v : Nat) :
    idle_field v = (v.testBit 3).toNat + 2 * (v.testBit 4).toNat :=
  field_eq v 3

/-! ## What one call of `musb_disable_idle` leaves in SYSCONFIG -/

theorem sysconfig_musb_disable_idle (p : Platform) (on_ : Int) (s : State)
    (hcpu : p.cpu_is_omap34xx = true) (hR : sysconfig p s < 2 ^ 32) :
    sysconfig p (musb_disable_idle p on_ s) = idle_update on_ (sysconfig p s) := by
  have hlt := idle_update_lt on_ _ hR
  unfold sysconfig at hR hlt ⊢
  simp only [musb_disable_idle, hcpu, omap_readl, omap_writel, State.log, Bool.not_true,
    Bool.false_eq_true, if_false, if_true, Nat.mod_mod, Nat.mod_eq_of_lt hR, Nat.mod_eq_of_lt hlt]

/-! ## Idle toggle: claims C2, C3, C8, C9 -/

/-- Claim C2.  On an OMAP34xx board, for every 32-bit SYSCONFIG value `R`:
after `musb_disable_idle(1)` followed immediately by `musb_disable_idle(0)`
the standby field (bits 13:12) holds the smart-standby encoding (binary 10),
and every bit outside the standby field and the idle field (bits 4:3) equals
the corresponding bit of `R`. -/
theorem musb_disable_idle_on_off_frame (p : Platform) (s : State) (R : Nat)
    (hcpu : p.cpu_is_omap34xx = true) (hR : R < 2 ^ 32) (hreg : sysconfig p s = R) :
    standby_field (sysconfig p (musb_disable_idle p 0 (musb_disable_idle p 1 s))) = 2 ∧
    ∀ i, i ≠ 12 → i ≠ 13 → i ≠ 3 → i ≠ 4 →
      (sysconfig p (musb_disable_idle p 0 (musb_disable_idle p 1 s))).testBit i = R.testBit i := by
  subst hreg
  have h1 := sysconfig_musb_disable_idle p 1 s hcpu hR
  have hlt : sysconfig p (musb_disable_idle p 1 s) < 2 ^ 32 := by
    rw [h1]; exact idle_update_lt 1 _ hR
  have h2 := sysconfig_musb_disable_idle p 0 (musb_disable_idle p 1 s) hcpu hlt
  rw [h2, h1]
  have hI := idle_update_lt 1 _ hR
  refine ⟨?_, ?_⟩
  · rw [standby_field_eq, testBit_idle_update_off _ _ hI, testBit_idle_update_off _ _ hI]
    simp
  · intro i h12 h13 h3 h4
    rw [testBit_idle_update_off _ _ hI, testBit_idle_update_on 1 (by decide) _ _ hR]
    simp [h12, h13, h3]

theorem musb_disable_idle_on_off_frame_witness :
    standby_field (sysconfig (board34xx 7 0 0)
      (musb_disable_idle (board34xx 7 0 0) 0
        (musb_disable_idle (board34xx 7 0 0) 1 (boot_with 0xFFFFFFFF)))) = 2 ∧
    (sysconfig (board34xx 7 0 0)
      (musb_disable_idle (board34xx 7 0 0) 0
        (musb_disable_idle (board34xx 7 0 0) 1 (boot_with 0xFFFFFFFF)))).testBit 31
      = Nat.testBit 0xFFFFFFFF 31 :=
  have h := musb_disable_idle_on_off_frame (board34xx 7 0 0) (boot_with 0xFFFFFFFF) 0xFFFFFFFF
    rfl (by decide) (by decide)
  ⟨h.1, h.2 31 (by decide) (by decide) (by decide) (by decide)⟩

/-- Claim C3, refuted as stated: starting from `R = 0` (standby field 00,
force-standby) the standby field after `musb_disable_idle(1)` then
`musb_disable_idle(0)` is 10, not the 00 it was. -/
theorem standby_round_trip_fails :
    standby_field (sysconfig (board34xx 7 0 0)
      (musb_disable_idle (board34xx 7 0 0) 0
        (musb_disable_idle (board34xx 7 0 0) 1 (boot_with 0)))) = 2 ∧
    standby_field (sysconfig (board34xx 7 0 0) (boot_with 0)) = 0 ∧
    standby_field (sysconfig (board34xx 7 0 0)
      (musb_disable_idle (board34xx 7 0 0) 0
        (musb_disable_idle (board34xx 7 0 0) 1 (boot_with 0)))) ≠
      standby_field (sysconfig (board34xx 7 0 0) (boot_with 0)) := by
  decide

/-- Claim C3, amended.  On an OMAP34xx board, for every 32-bit SYSCONFIG value
`R`, the standby field after `musb_disable_idle(1)` then `musb_disable_idle(0)`
is the smart-standby encoding (binary 10); it equals the standby field of `R`
exactly when that field already was smart-standby. -/
theorem standby_round_trip_iff (p : Platform) (s : State) (R : Nat)
    (hcpu : p.cpu_is_omap34xx = true) (hR : R < 2 ^ 32) (hreg : sysconfig p s = R) :
    standby_field (sysconfig p (musb_disable_idle p 0 (musb_disable_idle p 1 s))) = 2 ∧
    (standby_field (sysconfig p (musb_disable_idle p 0 (musb_disable_idle p 1 s)))
        = standby_field R ↔ standby_field R = 2) := by
  subst hreg
  have h1 := sysconfig_musb_disable_idle p 1 s hcpu hR
  have hI := idle_update_lt 1 _ hR
  have h2 := sysconfig_musb_disable_idle p 0 (musb_disable_idle p 1 s) hcpu (by rw [h1]; exact hI)
  have key : standby_field (sysconfig p (musb_disable_idle p 0 (musb_disable_idle p 1 s))) = 2 := by
    rw [h2, h1, standby_field_eq, testBit_idle_update_off _ _ hI, testBit_idle_update_off _ _ hI]
    simp
  refine ⟨key, ?_⟩
  rw [key]
  exact eq_comm

theorem standby_round_trip_iff_witness :
    standby_field (sysconfig (board34xx 7 0 0)
      (musb_disable_idle (board34xx 7 0 0) 0
        (musb_disable_idle (board34xx 7 0 0) 1 (boot_with 0x2000)))) = standby_field 0x2000 :=
  (standby_round_trip_iff (board34xx 7 0 0) (boot_with 0x2000) 0x2000
    rfl (by decide) (by decide)).2.mpr (by decide)

/-- Claim C8, refuted as stated: with `R = 0x10` (idle field 10, smart-idle)
the idle field after `musb_disable_idle(1)` is 11, not the no-idle encoding 01. -/
theorem active_idle_field_not_no_idle :
    idle_field (sysconfig (board34xx 7 0 0)
      (musb_disable_idle (board34xx 7 0 0) 1 (boot_with 0x10))) = 3 ∧
    idle_field (sysconfig (board34xx 7 0 0)
      (musb_disable_idle (board34xx 7 0 0) 1 (boot_with 0x10))) ≠ NOIDLE >>> SIDLEMODE := by
  decide

/-- Claim C8, amended.  On an OMAP34xx board, for every 32-bit SYSCONFIG value
`R`, after `musb_disable_idle(1)`: the standby field (bits 13:12) equals the
no-standby encoding (binary 01); the no-idle bit (bit 3) is set and bit 4 keeps
its value from `R`, so the idle field is that of `R` with the no-idle bit
or-ed in and reads 01 exactly when bit 4 of `R` is clear; every bit outside
the two fields equals that of `R`. -/
theorem musb_disable_idle_on_effect (p : Platform) (s : State) (R : Nat)
    (hcpu : p.cpu_is_omap34xx = true) (hR : R < 2 ^ 32) (hreg : sysconfig p s = R) :
    standby_field (sysconfig p (musb_disable_idle p 1 s)) = 1 ∧
    (sysconfig p (musb_disable_idle p 1 s)).testBit 3 = true ∧
    (sysconfig p (musb_disable_idle p 1 s)).testBit 4 = R.testBit 4 ∧
    idle_field (sysconfig p (musb_disable_idle p 1 s)) = idle_field R ||| 1 ∧
    (idle_field (sysconfig p (musb_disable_idle p 1 s)) = 1 ↔ R.testBit 4 = false) ∧
    ∀ i, i ≠ 12 → i ≠ 13 → i ≠ 3 → i ≠ 4 →
      (sysconfig p (musb_disable_idle p 1 s)).testBit i = R.testBit i := by
  subst hreg
  rw [sysconfig_musb_disable_idle p 1 s hcpu hR]
  have hb : ∀ i, (idle_update 1 (sysconfig p s)).testBit i =
      if i = 12 ∨ i = 3 then true else if i = 13 then false else (sysconfig p s).testBit i :=
    fun i => testBit_idle_update_on 1 (by decide) _ i hR
  refine ⟨?_, ?_, ?_, ?_, ?_, ?_⟩
  · rw [standby_field_eq, hb, hb]; simp
  · rw [hb]; simp
  · rw [hb]; simp
  · rw [idle_field_eq, idle_field_eq, hb, hb]
    cases (sysconfig p s).testBit 3 <;> cases (sysconfig p s).testBit 4 <;> decide
  · rw [idle_field_eq, hb, hb]
    cases (sysconfig p s).testBit 4 <;> simp
  · intro i h12 h13 h3 _
    rw [hb]; simp [h12, h13, h3]

theorem musb_disable_idle_on_effect_witness :
    standby_field (sysconfig (board34xx 7 0 0)
      (musb_disable_idle (board34xx 7 0 0) 1 (boot_with 0x2010))) = 1 ∧
    idle_field (sysconfig (board34xx 7 0 0)
      (musb_disable_idle (board34xx 7 0 0) 1 (boot_with 0x2010))) = idle_field 0x2010 ||| 1 :=
  have h := musb_disable_idle_on_effect (board34xx 7 0 0) (boot_with 0x2010) 0x2010
    rfl (by decide) (by decide)
  ⟨h.1, h.2.2.2.1⟩

/-- Claim C9, refuted as stated: with `R = 0x8` (idle field 01, no-idle) the
idle field after `musb_disable_idle(0)` is 00, so the idle bits did change. -/
theorem quiescent_idle_field_changes :
    idle_field (sysconfig (board34xx 7 0 0)
      (musb_disable_idle (board34xx 7 0 0) 0 (boot_with 0x8))) = 0 ∧
    idle_field (sysconfig (board34xx 7 0 0) (boot_with 0x8)) = 1 ∧
    idle_field (sysconfig (board34xx 7 0 0)
      (musb_disable_idle (board34xx 7 0 0) 0 (boot_with 0x8))) ≠
      idle_field (sysconfig (board34xx 7 0 0) (boot_with 0x8)) := by
  decide

/-- Claim C9, amended.  On an OMAP34xx board, for every 32-bit SYSCONFIG value
`R`, after `musb_disable_idle(0)`: the standby field (bits 13:12) equals the
smart-standby encoding (binary 10); the no-idle bit (bit 3) is cleared while
bit 4 of the idle field keeps its value from `R`; every bit other than bits
13, 12 and 3 equals that of `R`. -/
theorem musb_disable_idle_off_effect (p : Platform) (s : State) (R : Nat)
    (hcpu : p.cpu_is_omap34xx = true) (hR : R < 2 ^ 32) (hreg : sysconfig p s = R) :
    standby_field (sysconfig p (musb_disable_idle p 0 s)) = 2 ∧
    (sysconfig p (musb_disable_idle p 0 s)).testBit 3 = false ∧
    idle_field (sysconfig p (musb_disable_idle p 0 s)) = idle_field R &&& 2 ∧
    ∀ i, i ≠ 12 → i ≠ 13 → i ≠ 3 →
      (sysconfig p (musb_disable_idle p 0 s)).testBit i = R.testBit i := by
  subst hreg
  rw [sysconfig_musb_disable_idle p 0 s hcpu hR]
  have hb : ∀ i, (idle_update 0 (sysconfig p s)).testBit i =
      if i = 13 then true else if i = 12 ∨ i = 3 then false else (sysconfig p s).testBit i :=
    fun i => testBit_idle_update_off _ i hR
  refine ⟨?_, ?_, ?_, ?_⟩
  · rw [standby_field_eq, hb, hb]; simp
  · rw [hb]; simp
  · rw [idle_field_eq, idle_field_eq, hb, hb]
    cases (sysconfig p s).testBit 3 <;> cases (sysconfig p s).testBit 4 <;> decide
  · intro i h12 h13 h3
    rw [hb]; simp [h12, h13, h3]

theorem musb_disable_idle_off_effect_witness :
    standby_field (sysconfig (board34xx 7 0 0)
      (musb_disable_idle (board34xx 7 0 0) 0 (boot_with 0x1018))) = 2 ∧
    (sysconfig (board34xx 7 0 0)
      (musb_disable_idle (board34xx 7 0 0) 0 (boot_with 0x1018))).testBit 4 = Nat.testBit 0x1018 4 :=
  have h := musb_disable_idle_off_effect (board34xx 7 0 0) (boot_with 0x1018) 0x1018
    rfl (by decide) (by decide)
  ⟨h.1, h.2.2.2 4 (by decide) (by decide) (by decide)⟩

/-! ## Clock gate: claim C1 -/

/-- From `clk_on = 0`, every run of `musb_set_clock` calls leaves `clk_on` at 0 or 1. -/
theorem set_clock_calls_clk_on (p : Platform) (ENODEV : Int) (calls : List (Nat × Int)) :
    ∀ s : State, (s.clk_on = 0 ∨ s.clk_on = 1) →
      ((set_clock_calls p ENODEV calls s).clk_on = 0 ∨
        (set_clock_calls p ENODEV calls s).clk_on = 1) := by
  induction calls with
  | nil => intro s h; exact h
  | cons c rest ih =>
    intro s h
    obtain ⟨clk, state⟩ := c
    apply ih
    unfold musb_set_clock
    by_cases hs : state = 0
    · by_cases hc : s.clk_on = 0
      · simp [hs, hc]
      · simp [hs, hc, clk_disable, State.log]
    · by_cases hc : s.clk_on > 0
      · simp [hs, hc, h]
      · simp [hs, hc, clk_enable, State.log]

/-- Claim C1.  Starting from `clk_on = 0`, after any sequence of
`musb_set_clock` calls: `clk_on` is 0 or 1; an acquire (`state != 0`) with
the gate enabled and a release (`state == 0`) with the gate disabled return
`-ENODEV` (non-zero), make no clock call and leave the state as it was; an
acquire with the gate disabled returns 0, makes exactly one `clk_enable` call
and sets `clk_on`; a release with the gate enabled returns 0, makes exactly
one `clk_disable` call and clears `clk_on`.  Hence a second acquire right
after an acquire fails, and a second release right after a release fails. -/
theorem musb_set_clock_gate (p : Platform) (ENODEV : Int) (hE : 0 < ENODEV)
    (s0 : State) (h0 : s0.clk_on = 0) (calls : List (Nat × Int)) (clk : Nat) (state : Int) :
    ((set_clock_calls p ENODEV calls s0).clk_on = 0 ∨
      (set_clock_calls p ENODEV calls s0).clk_on = 1) ∧
    (state ≠ 0 → (set_clock_calls p ENODEV calls s0).clk_on = 1 →
      musb_set_clock p ENODEV (set_clock_calls p ENODEV calls s0) clk state
        = (-ENODEV, set_clock_calls p ENODEV calls s0) ∧ -ENODEV ≠ 0) ∧
    (state = 0 → (set_clock_calls p ENODEV calls s0).clk_on = 0 →
      musb_set_clock p ENODEV (set_clock_calls p ENODEV calls s0) clk state
        = (-ENODEV, set_clock_calls p ENODEV calls s0) ∧ -ENODEV ≠ 0) ∧
    (state ≠ 0 → (set_clock_calls p ENODEV calls s0).clk_on = 0 →
      musb_set_clock p ENODEV (set_clock_calls p ENODEV calls s0) clk state
        = (0, { set_clock_calls p ENODEV calls s0 with
                clk_on := 1
                trace := (set_clock_calls p ENODEV calls s0).trace
                  ++ [Event.clk_enable clk (p.clk_enable clk)] })) ∧
    (state = 0 → (set_clock_calls p ENODEV calls s0).clk_on = 1 →
      musb_set_clock p ENODEV (set_clock_calls p ENODEV calls s0) clk state
        = (0, { set_clock_calls p ENODEV calls s0 with
                clk_on := 0
                trace := (set_clock_calls p ENODEV calls s0).trace
                  ++ [Event.clk_disable clk] })) ∧
    (∀ clk2 state2, state ≠ 0 → state2 ≠ 0 →
      musb_set_clock p ENODEV
          (musb_set_clock p ENODEV (set_clock_calls p ENODEV calls s0) clk state).2 clk2 state2
        = (-ENODEV,
          (musb_set_clock p ENODEV (set_clock_calls p ENODEV calls s0) clk state).2)) ∧
    (∀ clk2 state2, state = 0 → state2 = 0 →
      musb_set_clock p ENODEV
          (musb_set_clock p ENODEV (set_clock_calls p ENODEV calls s0) clk state).2 clk2 state2
        = (-ENODEV,
          (musb_set_clock p ENODEV (set_clock_calls p ENODEV calls s0) clk state).2)) := by
  have hinv := set_clock_calls_clk_on p ENODEV calls s0 (Or.inl h0)
  generalize set_clock_calls p ENODEV calls s0 = s at hinv ⊢
  have hne : -ENODEV ≠ 0 := by omega
  refine ⟨hinv, ?_, ?_, ?_, ?_, ?_, ?_⟩
  · intro hs hc
    simp [musb_set_clock, hs, hc, hne]
  · intro hs hc
    simp [musb_set_clock, hs, hc, hne]
  · intro hs hc
    simp [musb_set_clock, hs, hc, clk_enable, State.log]
  · intro hs hc
    simp [musb_set_clock, hs, hc, clk_disable, State.log]
  · intro clk2 state2 hs hs2
    rcases hinv with hc | hc
    · simp [musb_set_clock, hs, hs2, hc, clk_enable, State.log]
    · simp [musb_set_clock, hs, hs2, hc]
  · intro clk2 state2 hs hs2
    rcases hinv with hc | hc
    · simp [musb_set_clock, hs, hs2, hc]
    · simp [musb_set_clock, hs, hs2, hc, clk_disable, State.log]

theorem musb_set_clock_gate_witness :
    musb_set_clock (board34xx 7 0 0) 19
        (set_clock_calls (board34xx 7 0 0) 19 [(7, 1), (7, 0), (7, 5)] (boot_with 0)) 7 1
      = (-19, set_clock_calls (board34xx 7 0 0) 19 [(7, 1), (7, 0), (7, 5)] (boot_with 0)) ∧
    (-19 : Int) ≠ 0 :=
  (musb_set_clock_gate (board34xx 7 0 0) 19 (by decide) (boot_with 0) rfl
    [(7, 1), (7, 0), (7, 5)] 7 1).2.1 (by decide) (by decide)

/-! ## Unsupported board and auto-idle: claims C4, C7 -/

/-- Claim C4.  When `cpu_is_omap34xx()` is false, for every prior state, every
argument and every fuel, `musb_disable_idle(on)` and `usb_musb_pm_init()`
return with the state exactly as it was: nothing is appended to the recorded
trace (no register access, no mapping, no clock call, no status read), and
registers and statics are unchanged.  In particular an empty trace stays empty. -/
theorem unsupported_board_untouched (p : Platform) (hcpu : p.cpu_is_omap34xx = false)
    (on_ : Int) (fuel : Nat) (s : State) :
    musb_disable_idle p on_ s = s ∧
    usb_musb_pm_init p fuel s = some s ∧
    events_since s (musb_disable_idle p on_ s) = [] ∧
    (usb_musb_pm_init p fuel s).map (events_since s) = some [] ∧
    (s.trace = [] → (musb_disable_idle p on_ s).trace = [] ∧
      (usb_musb_pm_init p fuel s).map State.trace = some []) := by
  have h1 : musb_disable_idle p on_ s = s := by simp [musb_disable_idle, hcpu]
  have h2 : usb_musb_pm_init p fuel s = some s := by simp [usb_musb_pm_init, hcpu]
  rw [h1, h2]
  refine ⟨rfl, rfl, ?_, ?_, ?_⟩
  · simp [events_since]
  · simp [events_since]
  · intro h
    simp [h]

theorem unsupported_board_untouched_witness :
    musb_disable_idle board24xx 1 (boot_with 0x2010) = boot_with 0x2010 ∧
    usb_musb_pm_init board24xx 0 (boot_with 0x2010) = some (boot_with 0x2010) :=
  have h := unsupported_board_untouched board24xx rfl 1 0 (boot_with 0x2010)
  ⟨h.1, h.2.1⟩

/-! ## Reset sequence: claims C5, C6, C10 -/

/-- An address inside the most recent window translates to the same offset from its physical base. -/
theorem translate_head (va pa size off : Nat) (ws : List Window) (h : off < size) :
    translate ({ va := va, pa := pa, size := size } :: ws) (va + off) =
      some ((pa + off) % 2 ^ 32) := by
  have h1 : va ≤ va + off ∧ va + off < va + size := ⟨by omega, by omega⟩
  simp only [translate, h1, and_self, if_true, Nat.add_sub_cancel_left]

/-- The loop's test `OTG_SYSS_RESETDONE & v` is zero exactly when bit 0 of the value read is clear. -/
theorem resetdone_and_eq_zero (x : Nat) :
    OTG_SYSS_RESETDONE &&& (x % 2 ^ 32) = 0 ↔ x.testBit 0 = false := by
  have h : OTG_SYSS_RESETDONE = 1 := by decide
  rw [h, Nat.and_comm, Nat.and_one_is_mod, Nat.testBit_zero]
  simp only [decide_eq_false_iff_not]
  omega

theorem poll_events_succ (p : Platform) (addr k0 n : Nat) :
    poll_events p addr k0 (n + 1) =
      Event.raw_readl addr (p.readl k0 addr % 2 ^ 32) :: Event.cpu_relax ::
        poll_events p addr (k0 + 1) n := by
  simp [poll_events, List.range_succ_eq_map, List.flatMap_map, Function.comp_def,
    Nat.add_assoc, Nat.add_comm 1]

/-- With enough fuel the poll of a mapped status register returns, having made `n + 1` reads. -/
theorem poll_resetdone_spec (p : Platform) (n : Nat) :
    ∀ (fuel : Nat) (s : State), n < fuel →
      (translate s.maps (s.otg_base + OTG_SYSSTATUS)).isNone = false →
      (∀ k, k < n → (p.readl (s.nread + k) (s.otg_base + OTG_SYSSTATUS)).testBit 0 = false) →
      (p.readl (s.nread + n) (s.otg_base + OTG_SYSSTATUS)).testBit 0 = true →
      poll_resetdone p fuel s =
        some { s with nread := s.nread + n + 1
                      trace := s.trace ++ poll_events p (s.otg_base + OTG_SYSSTATUS) s.nread n } := by
  induction n with
  | zero =>
    intro fuel s hf hw _ hdone
    obtain ⟨f, rfl⟩ : ∃ f, fuel = f + 1 := ⟨fuel - 1, by omega⟩
    have hnz : ¬ OTG_SYSS_RESETDONE &&& (p.readl s.nread (s.otg_base + OTG_SYSSTATUS) % 2 ^ 32) = 0 := by
      rw [resetdone_and_eq_zero]; simpa using hdone
    simp only [poll_resetdone, __raw_readl]
    rw [if_neg hnz]
    simp [poll_events, hw]
  | succ n ih =>
    intro fuel s hf hw hbusy hdone
    obtain ⟨f, rfl⟩ : ∃ f, fuel = f + 1 := ⟨fuel - 1, by omega⟩
    have hz : OTG_SYSS_RESETDONE &&& (p.readl s.nread (s.otg_base + OTG_SYSSTATUS) % 2 ^ 32) = 0 := by
      rw [resetdone_and_eq_zero]; simpa using hbusy 0 (by omega)
    simp only [poll_resetdone, __raw_readl]
    rw [if_pos hz]
    rw [ih f _ (by omega)]
    · simp [cpu_relax, State.log, poll_events_succ, Nat.add_assoc, Nat.add_comm 1, hw]
    · simpa [cpu_relax, State.log] using hw
    · intro k hk
      have := hbusy (k + 1) (by omega)
      simpa [cpu_relax, State.log, Nat.add_assoc, Nat.add_comm 1] using this
    · simpa [cpu_relax, State.log, Nat.add_assoc, Nat.add_comm 1] using hdone

theorem filter_is_hw_poll_events (p : Platform) (addr k0 n : Nat) :
    (poll_events p addr k0 n).filter Event.is_hw =
      (List.range (n + 1)).map (fun k => Event.raw_readl addr (p.readl (k0 + k) addr % 2 ^ 32)) := by
  induction n generalizing k0 with
  | zero => simp [poll_events, Event.is_hw, List.range_succ_eq_map]
  | succ n ih =>
    rw [poll_events_succ, List.range_succ_eq_map (n + 1)]
    simp [Event.is_hw, ih, List.map_map, Function.comp_def, Nat.add_assoc, Nat.add_comm 1]

theorem filter_is_diag_poll_events (p : Platform) (addr k0 n : Nat) :
    (poll_events p addr k0 n).filter Event.is_diag = [] := by
  induction n generalizing k0 with
  | zero => simp [poll_events, Event.is_diag]
  | succ n ih =>
    rw [poll_events_succ]
    simp [Event.is_diag, ih]

/-- Claim C5.  On an OMAP34xx board where the mapping succeeds, the clock is
found and `clk_enable` returns 0, if the first `N` reads of SYSSTATUS have the
reset-done bit clear and the next one has it set, then for every `N` (and any
fuel above `N`) `usb_musb_pm_init()` returns, and the calls it recorded are, in
order: the set-up calls (`ioremap`, `dev_set_name`, `clk_get`), one
`clk_enable`, one write of `BIT(1)` to SYSCONFIG (offset 0x404), the `N + 1`
polling reads of SYSSTATUS (offset 0x408, a `cpu_relax` after each read
without reset-done), and one `clk_disable`.  Restricted to clock-gate calls
and register accesses the record is exactly: enable, the soft-reset write,
the `N + 1` reads, disable. -/
theorem usb_musb_pm_init_reset (p : Platform) (s : State) (N fuel : Nat)
    (hcpu : p.cpu_is_omap34xx = true) (hmap : p.otg_va ≠ 0)
    (hclk : p.clk_get ≠ 0) (hen : p.clk_enable p.clk_get = 0)
    (hbusy : ∀ k, k < N → (p.readl (s.nread + k) (p.otg_va + 0x408)).testBit 0 = false)
    (hdone : (p.readl (s.nread + N) (p.otg_va + 0x408)).testBit 0 = true)
    (hfuel : N < fuel) :
    (usb_musb_pm_init p fuel s).map (events_since s) =
      some ([Event.ioremap p.OMAP34XX_HSUSB_OTG_BASE 0x1000 p.otg_va, Event.dev_set_name,
          Event.clk_get p.clk_get, Event.clk_enable p.clk_get 0,
          Event.raw_writel (BIT 1) (p.otg_va + 0x404)]
        ++ poll_events p (p.otg_va + 0x408) s.nread N
        ++ [Event.clk_disable p.clk_get]) ∧
    (usb_musb_pm_init p fuel s).map (fun s1 => (events_since s s1).filter Event.is_hw) =
      some ([Event.clk_enable p.clk_get 0, Event.raw_writel 2 (p.otg_va + 0x404)]
        ++ (List.range (N + 1)).map
            (fun k => Event.raw_readl (p.otg_va + 0x408)
              (p.readl (s.nread + k) (p.otg_va + 0x408) % 2 ^ 32))
        ++ [Event.clk_disable p.clk_get]) := by
  have hmap' : p.ioremap p.OMAP34XX_HSUSB_OTG_BASE SZ_4K ≠ 0 := hmap
  have hw4 := translate_head (p.ioremap p.OMAP34XX_HSUSB_OTG_BASE SZ_4K)
    p.OMAP34XX_HSUSB_OTG_BASE SZ_4K OTG_SYSCONFIG s.maps (by decide)
  have hw8 := translate_head (p.ioremap p.OMAP34XX_HSUSB_OTG_BASE SZ_4K)
    p.OMAP34XX_HSUSB_OTG_BASE SZ_4K OTG_SYSSTATUS s.maps (by decide)
  have hrun : usb_musb_pm_init p fuel s =
      some { s with
        otg_base := p.otg_va
        otg_clk := p.clk_get
        regs := fun a =>
          if a = (p.OMAP34XX_HSUSB_OTG_BASE + 0x404) % 2 ^ 32 then 2 else s.regs a
        maps := { va := p.otg_va, pa := p.OMAP34XX_HSUSB_OTG_BASE, size := 0x1000 } :: s.maps
        nread := s.nread + N + 1
        trace := s.trace ++ ([Event.ioremap p.OMAP34XX_HSUSB_OTG_BASE 0x1000 p.otg_va,
            Event.dev_set_name, Event.clk_get p.clk_get, Event.clk_enable p.clk_get 0,
            Event.raw_writel 2 (p.otg_va + 0x404)]
          ++ poll_events p (p.otg_va + 0x408) s.nread N
          ++ [Event.clk_disable p.clk_get]) } := by
    simp only [usb_musb_pm_init, hcpu, ioremap, WARN_ON, dev_set_name, clk_get, clk_enable,
      State.log, hmap', hclk, hen, __raw_writel, hw4, Bool.not_true, Bool.false_eq_true, if_false,
      decide_False, ne_eq, not_false_eq_true, not_true_eq_false, if_true, decide_True]
    rw [poll_resetdone_spec p N fuel _ hfuel (by simp [hw8])
      (by simpa [Platform.otg_va, OTG_SYSSTATUS] using hbusy)
      (by simpa [Platform.otg_va, OTG_SYSSTATUS] using hdone)]
    simp [hclk, clk_disable, State.log, Platform.otg_va, SZ_4K, OTG_SYSCONFIG, OTG_SYSSTATUS,
      OTG_SYSC_SOFTRESET, BIT]
  rw [hrun]
  have hb : BIT 1 = 2 := by decide
  simp [events_since, hb, Event.is_hw, filter_is_hw_poll_events]

theorem usb_musb_pm_init_reset_witness :
    (usb_musb_pm_init (board34xx 7 0 3) 4 (boot_with 0)).map
        (fun s1 => (events_since (boot_with 0) s1).filter Event.is_hw) =
      some ([Event.clk_enable (board34xx 7 0 3).clk_get 0,
          Event.raw_writel 2 ((board34xx 7 0 3).otg_va + 0x404)]
        ++ (List.range (3 + 1)).map
            (fun k => Event.raw_readl ((board34xx 7 0 3).otg_va + 0x408)
              ((board34xx 7 0 3).readl ((boot_with 0).nread + k)
                ((board34xx 7 0 3).otg_va + 0x408) % 2 ^ 32))
        ++ [Event.clk_disable (board34xx 7 0 3).clk_get]) :=
  (usb_musb_pm_init_reset (board34xx 7 0 3) (boot_with 0) 3 4 rfl (by decide) (by decide)
    (by decide) (by decide) (by decide) (by decide)).2

/-- Claim C6, refuted as stated: on an OMAP34xx board whose clock lookup
returns `NULL` and whose third status read reports reset-done,
`usb_musb_pm_init()` records the mapping, the lookup, the soft-reset write and
three reads, and no diagnostic at all: neither `printk` nor `WARN_ON`. -/
theorem absent_clock_logs_nothing :
    (usb_musb_pm_init (board34xx 0 0 2) 3 (boot_with 0)).map (events_since (boot_with 0)) =
      some [Event.ioremap 0x480AB000 0x1000 0xFA0AB000, Event.dev_set_name, Event.clk_get 0,
        Event.raw_writel 2 0xFA0AB404,
        Event.raw_readl 0xFA0AB408 0, Event.cpu_relax,
        Event.raw_readl 0xFA0AB408 0, Event.cpu_relax,
        Event.raw_readl 0xFA0AB408 1] ∧
    (usb_musb_pm_init (board34xx 0 0 2) 3 (boot_with 0)).map
        (fun s1 => (events_since (boot_with 0) s1).filter Event.is_diag) = some [] := by
  decide

/-- Claim C6, amended.  On an OMAP34xx board where the mapping succeeds and
the clock lookup returns `NULL`, if the first `N` reads of SYSSTATUS have the
reset-done bit clear and the next one has it set, `usb_musb_pm_init()` returns
having recorded exactly: `ioremap`, `dev_set_name`, `clk_get`, the write of
`BIT(1)` to SYSCONFIG and the `N + 1` polling reads.  No `clk_enable` or
`clk_disable` call occurs, and no diagnostic is logged. -/
theorem usb_musb_pm_init_no_clock (p : Platform) (s : State) (N fuel : Nat)
    (hcpu : p.cpu_is_omap34xx = true) (hmap : p.otg_va ≠ 0) (hclk : p.clk_get = 0)
    (hbusy : ∀ k, k < N → (p.readl (s.nread + k) (p.otg_va + 0x408)).testBit 0 = false)
    (hdone : (p.readl (s.nread + N) (p.otg_va + 0x408)).testBit 0 = true)
    (hfuel : N < fuel) :
    (usb_musb_pm_init p fuel s).map (events_since s) =
      some ([Event.ioremap p.OMAP34XX_HSUSB_OTG_BASE 0x1000 p.otg_va, Event.dev_set_name,
          Event.clk_get 0, Event.raw_writel (BIT 1) (p.otg_va + 0x404)]
        ++ poll_events p (p.otg_va + 0x408) s.nread N) ∧
    (usb_musb_pm_init p fuel s).map (fun s1 => (events_since s s1).filter Event.is_hw) =
      some (Event.raw_writel 2 (p.otg_va + 0x404) ::
        (List.range (N + 1)).map
          (fun k => Event.raw_readl (p.otg_va + 0x408)
            (p.readl (s.nread + k) (p.otg_va + 0x408) % 2 ^ 32))) ∧
    (usb_musb_pm_init p fuel s).map (fun s1 => (events_since s s1).filter Event.is_diag) =
      some [] := by
  have hmap' : p.ioremap p.OMAP34XX_HSUSB_OTG_BASE SZ_4K ≠ 0 := hmap
  have hw4 := translate_head (p.ioremap p.OMAP34XX_HSUSB_OTG_BASE SZ_4K)
    p.OMAP34XX_HSUSB_OTG_BASE SZ_4K OTG_SYSCONFIG s.maps (by decide)
  have hw8 := translate_head (p.ioremap p.OMAP34XX_HSUSB_OTG_BASE SZ_4K)
    p.OMAP34XX_HSUSB_OTG_BASE SZ_4K OTG_SYSSTATUS s.maps (by decide)
  have hrun : usb_musb_pm_init p fuel s =
      some { s with
        otg_base := p.otg_va
        otg_clk := 0
        regs := fun a =>
          if a = (p.OMAP34XX_HSUSB_OTG_BASE + 0x404) % 2 ^ 32 then 2 else s.regs a
        maps := { va := p.otg_va, pa := p.OMAP34XX_HSUSB_OTG_BASE, size := 0x1000 } :: s.maps
        nread := s.nread + N + 1
        trace := s.trace ++ ([Event.ioremap p.OMAP34XX_HSUSB_OTG_BASE 0x1000 p.otg_va,
            Event.dev_set_name, Event.clk_get 0, Event.raw_writel 2 (p.otg_va + 0x404)]
          ++ poll_events p (p.otg_va + 0x408) s.nread N) } := by
    simp only [usb_musb_pm_init, hcpu, ioremap, WARN_ON, dev_set_name, clk_get,
      State.log, hmap', hclk, __raw_writel, hw4, Bool.not_true, Bool.false_eq_true, if_false,
      decide_False, ne_eq, not_false_eq_true, not_true_eq_false, if_true, decide_True]
    rw [poll_resetdone_spec p N fuel _ hfuel (by simp [hw8])
      (by simpa [Platform.otg_va, OTG_SYSSTATUS] using hbusy)
      (by simpa [Platform.otg_va, OTG_SYSSTATUS] using hdone)]
    simp [Platform.otg_va, SZ_4K, OTG_SYSCONFIG, OTG_SYSSTATUS, OTG_SYSC_SOFTRESET, BIT]
  rw [hrun]
  have hb : BIT 1 = 2 := by decide
  simp [events_since, hb, Event.is_hw, Event.is_diag, filter_is_hw_poll_events,
    filter_is_diag_poll_events]

theorem usb_musb_pm_init_no_clock_witness :
    (usb_musb_pm_init (board34xx 0 0 2) 5 (boot_with 0)).map
        (fun s1 => (events_since (boot_with 0) s1).filter Event.is_diag) = some [] :=
  (usb_musb_pm_init_no_clock (board34xx 0 0 2) (boot_with 0) 2 5 rfl (by decide) rfl
    (by decide) (by decide) (by decide)).2.2

/-- Claim C10, refuted as stated: on an OMAP34xx board whose `clk_enable`
returns -5, `usb_musb_pm_init()` records the warning and then `clk_disable`;
it writes nothing to SYSCONFIG and never reads SYSSTATUS. -/
theorem failed_enable_skips_reset :
    (usb_musb_pm_init (board34xx 7 (-5) 0) 1 (boot_with 0)).map (events_since (boot_with 0)) =
      some [Event.ioremap 0x480AB000 0x1000 0xFA0AB000, Event.dev_set_name, Event.clk_get 7,
        Event.clk_enable 7 (-5), Event.printk, Event.clk_disable 7] ∧
    (usb_musb_pm_init (board34xx 7 (-5) 0) 1 (boot_with 0)).map
        (fun s1 => (events_since (boot_with 0) s1).filter Event.is_reg) = some [] := by
  decide

/-- Claim C10, amended.  On an OMAP34xx board where the mapping succeeds and
the clock is found but `clk_enable` returns non-zero, `usb_musb_pm_init()`
returns (whatever the status register would read, with any fuel), logs the
warning exactly once and does not reset: it makes no register access at all,
so SYSCONFIG is not written and SYSSTATUS is not polled. -/
theorem usb_musb_pm_init_enable_failed (p : Platform) (s : State) (fuel : Nat)
    (hcpu : p.cpu_is_omap34xx = true) (hmap : p.otg_va ≠ 0)
    (hclk : p.clk_get ≠ 0) (hen : p.clk_enable p.clk_get ≠ 0) :
    (usb_musb_pm_init p fuel s).map (fun s1 => (events_since s s1).filter Event.is_diag) =
      some [Event.printk] ∧
    (usb_musb_pm_init p fuel s).map (fun s1 => (events_since s s1).filter Event.is_reg) =
      some [] ∧
    (usb_musb_pm_init p fuel s).map State.regs = some s.regs ∧
    (usb_musb_pm_init p fuel s).map State.nread = some s.nread := by
  have hmap' : p.ioremap p.OMAP34XX_HSUSB_OTG_BASE SZ_4K ≠ 0 := hmap
  have hrun : usb_musb_pm_init p fuel s =
      some { s with
        otg_base := p.otg_va
        otg_clk := p.clk_get
        maps := { va := p.otg_va, pa := p.OMAP34XX_HSUSB_OTG_BASE, size := 0x1000 } :: s.maps
        trace := s.trace ++ [Event.ioremap p.OMAP34XX_HSUSB_OTG_BASE 0x1000 p.otg_va,
            Event.dev_set_name, Event.clk_get p.clk_get,
            Event.clk_enable p.clk_get (p.clk_enable p.clk_get), Event.printk,
            Event.clk_disable p.clk_get] } := by
    simp only [usb_musb_pm_init, hcpu, ioremap, WARN_ON, dev_set_name, clk_get, clk_enable,
      State.log, hmap', hclk, hen, Bool.not_true, Bool.false_eq_true, if_false,
      decide_False, ne_eq, not_false_eq_true, not_true_eq_false, if_true, decide_True]
    simp [hclk, printk, clk_disable, State.log, Platform.otg_va, SZ_4K]
  rw [hrun]
  simp [events_since, Event.is_diag, Event.is_reg]

theorem usb_musb_pm_init_enable_failed_witness :
    (usb_musb_pm_init (board34xx 7 (-5) 0) 0 (boot_with 0)).map
        (fun s1 => (events_since (boot_with 0) s1).filter Event.is_diag) = some [Event.printk] :=
  (usb_musb_pm_init_enable_failed (board34xx 7 (-5) 0) (boot_with 0) 0 rfl (by decide)
    (by decide) (by decide)).1

/-! ## Auto-idle: claim C7 -/

/-- A poll that returns has changed neither the statics, nor the windows, nor any register. -/
theorem poll_resetdone_frame (p : Platform) :
    ∀ (fuel : Nat) (s s1 : State), poll_resetdone p fuel s = some s1 →
      s1.otg_base = s.otg_base ∧ s1.otg_clk = s.otg_clk ∧ s1.maps = s.maps ∧ s1.regs = s.regs := by
  intro fuel
  induction fuel with
  | zero => intro s s1 h; simp [poll_resetdone] at h
  | succ f ih =>
    intro s s1 h
    simp only [poll_resetdone, __raw_readl] at h
    split at h
    · have := ih _ _ h
      simpa [cpu_relax, State.log] using this
    · cases h
      exact ⟨rfl, rfl, rfl, rfl⟩

/-- Whenever `usb_musb_pm_init()` returns on an OMAP34xx board whose mapping
succeeded, `otg_base` is the mapped address and offset 0x404 of it stands for
the physical SYSCONFIG register. -/
theorem usb_musb_pm_init_maps_window (p : Platform) (fuel : Nat) (s s1 : State)
    (hcpu : p.cpu_is_omap34xx = true) (hmap : p.otg_va ≠ 0)
    (hrun : usb_musb_pm_init p fuel s = some s1) :
    s1.otg_base = p.otg_va ∧
    translate s1.maps (s1.otg_base + 0x404) =
      some ((p.OMAP34XX_HSUSB_OTG_BASE + 0x404) % 2 ^ 32) := by
  have hmap' : p.ioremap p.OMAP34XX_HSUSB_OTG_BASE SZ_4K ≠ 0 := hmap
  have hw4 := translate_head (p.ioremap p.OMAP34XX_HSUSB_OTG_BASE SZ_4K)
    p.OMAP34XX_HSUSB_OTG_BASE SZ_4K 0x404 s.maps (by decide)
  have key : s1.otg_base = p.ioremap p.OMAP34XX_HSUSB_OTG_BASE SZ_4K ∧
      s1.maps = { va := p.ioremap p.OMAP34XX_HSUSB_OTG_BASE SZ_4K,
                  pa := p.OMAP34XX_HSUSB_OTG_BASE, size := SZ_4K } :: s.maps := by
    simp only [usb_musb_pm_init, hcpu, ioremap, WARN_ON, dev_set_name, clk_get, clk_enable,
      State.log, hmap', Bool.not_true, Bool.false_eq_true, if_false,
      decide_False, ne_eq, not_false_eq_true, not_true_eq_false, if_true, decide_True] at hrun
    split at hrun
    · exact absurd hrun (by simp)
    · rename_i after s2 hafter
      have hs2 : s2.otg_base = p.ioremap p.OMAP34XX_HSUSB_OTG_BASE SZ_4K ∧
          s2.maps = { va := p.ioremap p.OMAP34XX_HSUSB_OTG_BASE SZ_4K,
                      pa := p.OMAP34XX_HSUSB_OTG_BASE, size := SZ_4K } :: s.maps := by
        by_cases hc : p.clk_get = 0
        · simp only [hc, if_true, if_false, not_true_eq_false, Bool.false_eq_true] at hafter
          have h := poll_resetdone_frame p _ _ _ hafter
          rw [h.1, h.2.2.1]
          simp only [__raw_writel]
          split <;> exact ⟨rfl, rfl⟩
        · by_cases he : p.clk_enable p.clk_get = 0
          · simp only [hc, he, if_true, if_false, not_true_eq_false, not_false_eq_true,
              decide_False, decide_True, Bool.false_eq_true] at hafter
            have h := poll_resetdone_frame p _ _ _ hafter
            rw [h.1, h.2.2.1]
            simp only [__raw_writel]
            split <;> exact ⟨rfl, rfl⟩
          · simp only [hc, he, if_true, if_false, not_true_eq_false, not_false_eq_true,
              decide_False, decide_True, Bool.false_eq_true] at hafter
            cases hafter
            exact ⟨rfl, rfl⟩
      split at hrun
      · cases hrun
        simpa [clk_disable, State.log] using hs2
      · cases hrun
        exact hs2
  rw [key.1, key.2]
  exact ⟨rfl, hw4⟩

/-- Claim C7, refuted as stated: on a board that is not an OMAP34xx,
`usb_musb_pm_init()` returns before mapping anything, so `otg_base` is still
`NULL`; `usb_musb_disable_autoidle()` then stores through `NULL + 0x404`,
which is no register at all: SYSCONFIG still holds the 0x2010 it held. -/
theorem autoidle_without_window_misses_sysconfig :
    (usb_musb_pm_init board24xx 1 (boot_with 0x2010)).map State.otg_base = some 0 ∧
    (usb_musb_pm_init board24xx 1 (boot_with 0x2010)).map
        (fun s => sysconfig board24xx (usb_musb_disable_autoidle s)) = some 0x2010 ∧
    (usb_musb_pm_init board24xx 1 (boot_with 0x2010)).map
        (fun s => events_since s (usb_musb_disable_autoidle s)) =
      some [Event.raw_writel 0 0x404] ∧
    (usb_musb_pm_init board24xx 1 (boot_with 0x2010)).map
        (fun s => (usb_musb_disable_autoidle s).oops) = some true := by
  decide

/-- Claim C7, amended.  Whenever `otg_base` is the mapped register window of
the OTG block (offset 0x404 of it stands for the physical SYSCONFIG register,
which is how `usb_musb_pm_init()` leaves it on an OMAP34xx board whose mapping
succeeded), then for every prior register content, after
`usb_musb_disable_autoidle()` SYSCONFIG holds exactly zero, every other
register holds what it held, and the call recorded exactly one event: the
write of zero at offset 0x404 of the window. -/
theorem usb_musb_disable_autoidle_mapped (p : Platform) (s : State)
    (hwin : translate s.maps (s.otg_base + 0x404) =
      some ((p.OMAP34XX_HSUSB_OTG_BASE + 0x404) % 2 ^ 32)) :
    sysconfig p (usb_musb_disable_autoidle s) = 0 ∧
    (usb_musb_disable_autoidle s).regs =
      (fun a => if a = (p.OMAP34XX_HSUSB_OTG_BASE + 0x404) % 2 ^ 32 then 0 else s.regs a) ∧
    (usb_musb_disable_autoidle s).oops = s.oops ∧
    events_since s (usb_musb_disable_autoidle s) = [Event.raw_writel 0 (s.otg_base + 0x404)] := by
  have hwin' : translate s.maps (s.otg_base + OTG_SYSCONFIG) =
      some ((p.OMAP34XX_HSUSB_OTG_BASE + 0x404) % 2 ^ 32) := hwin
  have hrun : usb_musb_disable_autoidle s =
      { s with
        regs := fun a =>
          if a = (p.OMAP34XX_HSUSB_OTG_BASE + 0x404) % 2 ^ 32 then 0 else s.regs a
        trace := s.trace ++ [Event.raw_writel 0 (s.otg_base + 0x404)] } := by
    simp only [usb_musb_disable_autoidle, __raw_writel, hwin']
    simp [OTG_SYSCONFIG]
  rw [hrun]
  refine ⟨?_, rfl, rfl, ?_⟩
  · simp [sysconfig, OTG_SYSCONFIG]
  · simp [events_since]

theorem usb_musb_disable_autoidle_mapped_witness :
    sysconfig (board34xx 7 0 0) (musb_disable_idle (board34xx 7 0 0) 1
      ((usb_musb_pm_init (board34xx 7 0 0) 1 (boot_with 0x2010)).getD (boot_with 0))) = 0x100A ∧
    sysconfig (board34xx 7 0 0)
      (usb_musb_disable_autoidle (musb_disable_idle (board34xx 7 0 0) 1
        ((usb_musb_pm_init (board34xx 7 0 0) 1 (boot_with 0x2010)).getD (boot_with 0)))) = 0 :=
  ⟨by decide,
   (usb_musb_disable_autoidle_mapped (board34xx 7 0 0)
      (musb_disable_idle (board34xx 7 0 0) 1
        ((usb_musb_pm_init (board34xx 7 0 0) 1 (boot_with 0x2010)).getD (boot_with 0)))
      (by decide)).1⟩

end UsbMusb
